import Mathlib

/-!
Verification of the deploy-to-firebase branch-classification engine
(`computeDeploymentsInfo`, `computeInputVars`, `computeMajorVersion`,
`getLatestCommit`, `getMostRecentMinorBranch`, `getRemoteRefs`,
`skipDeployment`, `validateDeploymentsInfo`).

The JavaScript source is shallowly embedded:
* JS strings are Lean `String`s; the string operations used by the script
  (`split`, `trim`, `slice`, template interpolation, unary `+` conversion to a
  number) are modelled on the underlying character list so that everything is
  executable and kernel-reducible.
* The external `git ls-remote` collaborator (`exec`) is modelled as a function
  `String → String` mapping the ref pattern (respectively, for the cached
  variant, the full command string) to the raw stdout text.
* A JS number that may be `NaN` is modelled as `Option Nat` (`none` = `NaN`);
  the branch-name segments fed to unary `+` are either digit strings, the
  empty string (which converts to `0`) or non-numeric strings (which convert
  to `NaN`).
* A JS value that may be a string, `null` or `undefined` is modelled as
  `Option (Option String)` (`none` = `null`, `some none` = `undefined`).
* Thrown `Error`s are modelled with `Except String`.
-/

namespace DeployToFirebase

/-- JS template interpolation of a possibly-`undefined` string value:
`undefined` renders as the text "undefined". -/
def jsToString : Option String → String
  | none => "undefined"
  | some s => s

/-- JS template interpolation of a number that may be `NaN`. -/
def jsNumberToString : Option Nat → String
  | none => "NaN"
  | some n => Nat.repr n

/-- Numeric value of a list of decimal digit characters. -/
def parseNatDigits (cs : List Char) : Nat :=
  cs.foldl (fun n c => n * 10 + (c.toNat - 48)) 0

/-- JS unary `+` applied to a string, for the strings that occur as
branch-name segments: the empty string converts to `0`, a string of decimal
digits converts numerically, and any other segment (e.g. "master") converts
to `NaN`, modelled as `none`.  (Exotic numeric syntaxes such as signs,
whitespace padding, decimals or hex do not occur in branch-name segments and
are mapped to `NaN` as well.) -/
def jsStringToNumber (s : String) : Option Nat :=
  if s.data = [] then some 0
  else if s.data.all Char.isDigit then some (parseNatDigits s.data)
  else none

/-- JS `String.prototype.split` with a single-character separator:
splits into the (always non-empty) list of separated segments. -/
def splitCharAux (c : Char) : List Char → List Char → List String
  | [], acc => [String.mk acc.reverse]
  | x :: xs, acc =>
      if x = c then String.mk acc.reverse :: splitCharAux c xs []
      else splitCharAux c xs (x :: acc)

/-- JS `s.split(c)` for a one-character separator `c`. -/
def jsSplitOn (c : Char) (s : String) : List String :=
  splitCharAux c s.data []

/-- JS `String.prototype.trim`: strip leading and trailing whitespace. -/
def jsTrim (s : String) : String :=
  String.mk (((s.data.dropWhile Char.isWhitespace).reverse.dropWhile
      Char.isWhitespace).reverse)

/-- JS `s.slice(0, n)`: the first `n` characters of `s`. -/
def jsSlice (n : Nat) (s : String) : String :=
  String.mk (s.data.take n)

/-- JS `array.join(', ')`. -/
def joinComma : List String → String
  | [] => ""
  | [s] => s
  | s :: rest => s ++ ", " ++ joinComma rest

/-- Stable insertion of `a` into `l`: `a` is placed in front of the first
element `b` with `le a b`. -/
def insertSorted (le : α → α → Bool) (a : α) : List α → List α
  | [] => [a]
  | b :: l => if le a b then a :: b :: l else b :: insertSorted le a l

/-- Model of JS `Array.prototype.sort(comparator)` for a comparator induced by
a total preorder `le` (`le a b` iff `comparator(a, b) <= 0`): a stable sort
that orders the list ascending by `le`.  Implemented as a stable insertion
sort so that it is structurally recursive and kernel-reducible. -/
def sortByLe (le : α → α → Bool) (l : List α) : List α :=
  l.foldr (insertSorted le) []

-- Constants from the script.
def REPO_SLUG : String := "angular/angular"
def NG_REMOTE_URL : String := "https://github.com/" ++ REPO_SLUG ++ ".git"

/-- `getRemoteRefs` (pure view): the external `git ls-remote <NG_REMOTE_URL>
<refOrPattern>` collaborator is modelled by `remote`, a function from the ref
pattern to the raw stdout text, fixed for the whole run.  The script trims the
output and splits it on newlines; note that an empty output yields `[""]`
(never `[]`), since JS `"".split('\n')` is `[""]`.

Within a single run the script's per-command memoization cache is semantically
transparent here because `remote` is a pure function of the pattern; the
stateful cache itself is modelled separately by `getRemoteRefsCached` below. -/
def getRemoteRefs (remote : String → String) (refOrPattern : String) :
    List String :=
  jsSplitOn '\n' (jsTrim (remote refOrPattern))

/-- `getLatestCommit`: first line of the remote-refs result, truncated to 40
characters (`result[0].slice(0, 40)`).  The result list of `getRemoteRefs` is
never empty, so the JS index `[0]` is modelled by `headD ""`. -/
def getLatestCommit (remote : String → String) (branchName : String) :
    String :=
  jsSlice 40 ((getRemoteRefs remote branchName).headD "")

/-- The strict branch-name pattern `^\d+\.\d+\.x$`: exactly three dot-separated
segments, the first two non-empty digit strings and the last the literal `x`. -/
def isVersionBranchName (name : String) : Bool :=
  match jsSplitOn '.' name with
  | [a, b, c] =>
      decide (a.data ≠ []) && a.data.all Char.isDigit &&
        decide (b.data ≠ []) && b.data.all Char.isDigit && c = "x"
  | _ => false

/-- The `(major, minor)` pair read off a branch name by the sort comparator:
`a.split('.')` destructured as `[major, minor]`, with each segment coerced to
a number by JS subtraction.  (For names accepted by `isVersionBranchName` the
segments are digit strings, so the coercion is plain decimal parsing.) -/
def versionKey (name : String) : Nat × Nat :=
  match jsSplitOn '.' name with
  | a :: b :: _ => (parseNatDigits a.data, parseNatDigits b.data)
  | _ => (0, 0)

/-- `comparator(a, b) <= 0` for the script's sort comparator
`(majorA - majorB) || (minorA - minorB)`: numeric-lexicographic order on the
`(major, minor)` key. -/
def byVersionLE (a b : String) : Bool :=
  decide ((versionKey a).1 < (versionKey b).1) ||
    (decide ((versionKey a).1 = (versionKey b).1) &&
      decide ((versionKey a).2 ≤ (versionKey b).2))

/-- The surviving version-branch names for a remote-refs query: the branch-name
segment `line.split('/')[2]` of each line (JS yields `undefined` for a missing
index, which the regex test then treats as the text "undefined" and rejects),
filtered by the strict `^\d+\.\d+\.x$` pattern. -/
def versionBranchCandidates (remote : String → String) (major : String) :
    List String :=
  ((getRemoteRefs remote ("refs/heads/" ++ major ++ ".*.x")).map
      (fun line => (jsSplitOn '/' line).getD 2 "undefined")).filter
    isVersionBranchName

/-- `getMostRecentMinorBranch`: sort the surviving branch names by version and
take the last (`pop()`, which is `undefined` — i.e. `none` — on an empty
array).  The script's default argument for `major` is `"*"`; callers here pass
it explicitly. -/
def getMostRecentMinorBranch (remote : String → String) (major : String) :
    Option String :=
  (sortByLe byVersionLE (versionBranchCandidates remote major)).getLast?

/-- The named pre- and post-deploy actions of the script, opaque to the
planner and validator (only their identity matters). -/
inductive ActionName where
  | build
  | checkPayloadSize
  | testPwaScore
  | removeServiceWorker
  | redirectToAngularIo
  | testNoActiveRcDeployment
deriving DecidableEq, Repr

/-- A deploy-target descriptor: a JS object whose properties may be absent
(`undefined`, modelled by `none`).  The `type` property is always set by the
script's constructors, but is kept as a plain string so that the validator's
unknown-`type` check is meaningful. -/
structure Deployment where
  name : Option String := none
  type : String
  reason : Option String := none
  deployEnv : Option String := none
  projectId : Option String := none
  siteId : Option String := none
  deployedUrl : Option String := none
  preDeployActions : Option (List ActionName) := none
  postDeployActions : Option (List ActionName) := none
deriving DecidableEq, Repr

/-- `skipDeployment(reason)`. -/
def skipDeployment (reason : String) : Deployment :=
  { name := some "skipped", type := "skipped", reason := some reason }

/-- The static target table `deploymentInfoPerTarget` from
`computeDeploymentsInfo`; `stable` and `archive` are parameterized by the
enclosing `currentBranchMajorVersion` value they close over. -/
def deploymentInfoPerTarget.next : Deployment :=
  { name := some "next", type := "primary", deployEnv := some "next",
    projectId := some "angular-io", siteId := some "next-angular-io-site",
    deployedUrl := some "https://next.angular.io/",
    preDeployActions := some [.build, .checkPayloadSize],
    postDeployActions := some [.testPwaScore] }

def deploymentInfoPerTarget.rc : Deployment :=
  { name := some "rc", type := "primary", deployEnv := some "rc",
    projectId := some "angular-io", siteId := some "rc-angular-io-site",
    deployedUrl := some "https://rc.angular.io/",
    preDeployActions := some [.build, .checkPayloadSize],
    postDeployActions := some [.testPwaScore] }

def deploymentInfoPerTarget.stable (currentBranchMajorVersion : Option Nat) :
    Deployment :=
  { name := some "stable", type := "primary", deployEnv := some "stable",
    projectId := some "angular-io",
    siteId := some ("v" ++ jsNumberToString currentBranchMajorVersion ++
      "-angular-io-site"),
    deployedUrl := some "https://angular.io/",
    preDeployActions := some [.build, .checkPayloadSize],
    postDeployActions := some [.testPwaScore] }

def deploymentInfoPerTarget.archive (currentBranchMajorVersion : Option Nat) :
    Deployment :=
  { name := some "archive", type := "primary", deployEnv := some "archive",
    projectId := some "angular-io",
    siteId := some ("v" ++ jsNumberToString currentBranchMajorVersion ++
      "-angular-io-site"),
    deployedUrl := some ("https://v" ++
      jsNumberToString currentBranchMajorVersion ++ ".angular.io/"),
    preDeployActions := some [.build, .checkPayloadSize],
    postDeployActions := some [.testPwaScore] }

def deploymentInfoPerTarget.noActiveRc : Deployment :=
  { name := some "stableNoActiveRc", type := "secondary",
    deployEnv := some "stable", projectId := some "angular-io",
    siteId := some "rc-angular-io-site",
    deployedUrl := some "https://rc.angular.io/",
    preDeployActions := some [.removeServiceWorker, .redirectToAngularIo],
    postDeployActions := some [.testNoActiveRcDeployment] }

/-- The input variables consumed by `computeDeploymentsInfo`.  The CI
environment variables other than `CI_PULL_REQUEST`, `CI_AIO_MIN_PWA_SCORE` and
the secret token are assumed present (plain strings); see `computeInputVars`. -/
structure InputVars where
  currentBranch : String
  currentCommit : String
  firebaseToken : Option String
  isPullRequest : Bool
  minPwaScore : Option String
  repoName : String
  repoOwner : String
  stableBranch : String
deriving DecidableEq, Repr

/-- `computeMajorVersion(branchName)`: `+branchName.split('.', 1)[0]` — the
first dot-separated segment coerced to a JS number (`none` = `NaN`). -/
def computeMajorVersion (branchName : String) : Option Nat :=
  jsStringToNumber ((jsSplitOn '.' branchName).headD "")

/-- JS `>=` on numbers that may be `NaN`: any comparison with `NaN` is false. -/
def jsGE : Option Nat → Option Nat → Bool
  | some x, some y => decide (x ≥ y)
  | _, _ => false

/-- `computeDeploymentsInfo(inputVars)`.  The early-return cascade of the
script is rendered as nested conditionals; `rcBranch`, which in JS ranges over
string / `null` / `undefined`, is modelled as `Option (Option String)`
(`none` = `null`, `some none` = `undefined`), so the JS comparisons
`currentBranch === rcBranch` and `rcBranch !== null` become
`rcBranch = some (some currentBranch)` and `rcBranch ≠ none`. -/
def computeDeploymentsInfo (remote : String → String) (v : InputVars) :
    List Deployment :=
  if v.repoOwner ++ "/" ++ v.repoName ≠ REPO_SLUG then
    [skipDeployment ("Skipping deploy because this is not " ++ REPO_SLUG ++
      ".")]
  else if v.isPullRequest then
    [skipDeployment "Skipping deploy because this is a PR build."]
  else
    let latestCommit := getLatestCommit remote v.currentBranch
    if v.currentCommit ≠ latestCommit then
      [skipDeployment ("Skipping deploy because " ++ v.currentCommit ++
        " is not the latest commit (" ++ latestCommit ++ ").")]
    else
      let currentBranchMajorVersion := computeMajorVersion v.currentBranch
      if v.currentBranch = "master" then
        [deploymentInfoPerTarget.next]
      else
        let mostRecentMinorBranch := getMostRecentMinorBranch remote "*"
        let rcBranch : Option (Option String) :=
          if mostRecentMinorBranch ≠ some v.stableBranch then
            some mostRecentMinorBranch
          else none
        if rcBranch = some (some v.currentBranch) then
          [deploymentInfoPerTarget.rc]
        else if v.currentBranch = v.stableBranch then
          if rcBranch ≠ none then
            [deploymentInfoPerTarget.stable currentBranchMajorVersion]
          else
            [deploymentInfoPerTarget.stable currentBranchMajorVersion,
              deploymentInfoPerTarget.noActiveRc]
        else
          let mostRecentMinorBranchForMajor :=
            getMostRecentMinorBranch remote
              (jsNumberToString currentBranchMajorVersion)
          if some v.currentBranch ≠ mostRecentMinorBranchForMajor then
            [skipDeployment ("Skipping deploy of branch \"" ++
              v.currentBranch ++ "\" to Firebase.\n" ++
              "There is a more recent branch with the same major version: \"" ++
              jsToString mostRecentMinorBranchForMajor ++ "\"")]
          else
            let stableBranchMajorVersion := computeMajorVersion v.stableBranch
            if jsGE currentBranchMajorVersion stableBranchMajorVersion then
              [skipDeployment ("Skipping deploy of branch \"" ++
                v.currentBranch ++ "\" to Firebase.\n" ++
                "This branch has an equal or higher major version than the " ++
                "stable branch (\"" ++ v.stableBranch ++
                "\") and is not the most recent minor branch.")]
            else
              [deploymentInfoPerTarget.archive currentBranchMajorVersion]

/-- The CI environment variables read by `computeInputVars`.  `CI_PULL_REQUEST`
and the two optional settings may be absent (`undefined`, modelled by `none`);
the remaining variables are assumed present. -/
structure Env where
  CI_AIO_MIN_PWA_SCORE : Option String
  CI_BRANCH : String
  CI_COMMIT : String
  CI_PULL_REQUEST : Option String
  CI_REPO_NAME : String
  CI_REPO_OWNER : String
  CI_SECRET_AIO_DEPLOY_FIREBASE_TOKEN : Option String
  CI_STABLE_BRANCH : String
deriving DecidableEq, Repr

/-- `computeInputVars(process.env)`: destructure the environment; the run is a
pull-request build unless `CI_PULL_REQUEST` is exactly the string "false"
(`CI_PULL_REQUEST !== 'false'`, which is also true when the variable is
absent). -/
def computeInputVars (env : Env) : InputVars :=
  { currentBranch := env.CI_BRANCH,
    currentCommit := env.CI_COMMIT,
    firebaseToken := env.CI_SECRET_AIO_DEPLOY_FIREBASE_TOKEN,
    isPullRequest := env.CI_PULL_REQUEST ≠ some "false",
    minPwaScore := env.CI_AIO_MIN_PWA_SCORE,
    repoName := env.CI_REPO_NAME,
    repoOwner := env.CI_REPO_OWNER,
    stableBranch := env.CI_STABLE_BRANCH }

/-- `listDeployTargetNames`: names joined by ", ", or "-" when that join is
empty (JS `join(', ') || '-'`). -/
def listDeployTargetNames (deploymentsList : List Deployment) : String :=
  let joined := joinComma (deploymentsList.map (fun t => t.name.getD "<no name>"))
  if joined = "" then "-" else joined

def knownTargetTypes : List String := ["primary", "secondary", "skipped"]

def requiredPropertiesForSkipped : List String := ["name", "type", "reason"]

def requiredPropertiesForNonSkipped : List String :=
  ["name", "type", "deployEnv", "projectId", "siteId", "deployedUrl",
    "preDeployActions", "postDeployActions"]

/-- `target[prop] !== undefined` for the property names occurring in the two
required-property lists (`type` is always set by the script's constructors;
an unlisted property name reads as `undefined`). -/
def targetPropertyIsDefined (t : Deployment) (p : String) : Bool :=
  if p = "name" then t.name.isSome
  else if p = "type" then true
  else if p = "reason" then t.reason.isSome
  else if p = "deployEnv" then t.deployEnv.isSome
  else if p = "projectId" then t.projectId.isSome
  else if p = "siteId" then t.siteId.isSome
  else if p = "deployedUrl" then t.deployedUrl.isSome
  else if p = "preDeployActions" then t.preDeployActions.isSome
  else if p = "postDeployActions" then t.postDeployActions.isSome
  else false

/-- The required properties missing from a target
(`requiredProperties.filter(prop => target[prop] === undefined)`). -/
def missingProperties (t : Deployment) : List String :=
  (if t.type = "skipped" then requiredPropertiesForSkipped
    else requiredPropertiesForNonSkipped).filter
    (fun p => !targetPropertyIsDefined t p)

/-- A non-skipped target carrying every property the validator requires. -/
def nonSkippedComplete (t : Deployment) : Bool :=
  t.name.isSome && t.deployEnv.isSome && t.projectId.isSome &&
    t.siteId.isSome && t.deployedUrl.isSome && t.preDeployActions.isSome &&
    t.postDeployActions.isSome

/-- `validateDeploymentsInfo(deploymentsList)`: the thrown `Error`s are
modelled as `Except.error` with the corresponding message.  The JS for-loop
over the targets throws at the first target with missing properties, modelled
by `find?`; `primaryTargets[0]` together with the surrounding length test is
rendered as a match on `primaryTargets` being a one-element list. -/
def validateDeploymentsInfo (deploymentsList : List Deployment) :
    Except String Unit :=
  let primaryTargets := deploymentsList.filter (fun t => t.type = "primary")
  let secondaryTargets :=
    deploymentsList.filter (fun t => t.type = "secondary")
  let skippedTargets := deploymentsList.filter (fun t => t.type = "skipped")
  let otherTargets :=
    deploymentsList.filter (fun t => !knownTargetTypes.contains t.type)
  if otherTargets.length > 0 then
    .error ("Expected all deploy targets to have a type of " ++
      "primary or secondary or skipped, but found " ++
      Nat.repr otherTargets.length ++ " targets with an unknown type: " ++
      joinComma (otherTargets.map
        (fun t => t.name.getD "<no name>" ++ " (type: " ++ t.type ++ ")")))
  else
    match deploymentsList.find? (fun t => !(missingProperties t).isEmpty) with
    | some t =>
        .error ("Expected deploy target " ++ t.name.getD "<no name>" ++
          " to have all required properties, but it is missing " ++
          joinComma (missingProperties t) ++ ".")
    | none =>
        if skippedTargets.length > 0 then
          if deploymentsList.length > 1 then
            .error ("Expected a single skipped deploy target, but found " ++
              Nat.repr deploymentsList.length ++ " targets in total: " ++
              listDeployTargetNames deploymentsList)
          else .ok ()
        else
          match primaryTargets with
          | [primaryTarget] =>
              let primaryIndex := deploymentsList.indexOf primaryTarget
              if primaryIndex ≠ 0 then
                .error ("Expected the primary target (" ++
                  primaryTarget.name.getD "<no name>" ++
                  ") to be the first item in the deploy target list, but it " ++
                  "was found at index " ++ Nat.repr primaryIndex ++
                  " (0-based): " ++ listDeployTargetNames deploymentsList)
              else
                let nonMatchingSecondaryTargets := secondaryTargets.filter
                  (fun t => !(t.deployEnv == primaryTarget.deployEnv))
                if nonMatchingSecondaryTargets.length > 0 then
                  .error ("Expected all secondary deploy targets to match " ++
                    "the primary target deployEnv (" ++
                    jsToString primaryTarget.deployEnv ++ "), but " ++
                    Nat.repr nonMatchingSecondaryTargets.length ++
                    " targets do not: " ++
                    joinComma (nonMatchingSecondaryTargets.map
                      (fun t => t.name.getD "<no name>" ++ " (deployEnv: " ++
                        jsToString t.deployEnv ++ ")")))
                else .ok ()
          | _ =>
              .error ("Expected exactly one primary deploy target, but " ++
                "found " ++ Nat.repr primaryTargets.length ++ ": " ++
                listDeployTargetNames primaryTargets)

/-- The behavior of the external `exec` for the cached-resolver model: the raw
stdout text of each full command string.  Distinct values model distinct
remote states. -/
structure GitEnv where
  lsRemote : String → String

/-- The command string whose literal text keys `GIT_REMOTE_REFS_CACHE`. -/
def refsCmd (remoteUrl refOrPattern : String) : String :=
  "git ls-remote " ++ remoteUrl ++ " " ++ refOrPattern

/-- `GIT_REMOTE_REFS_CACHE`: a map from command strings to cached ref lines,
modelled as an association list where `set` prepends (so `lookup` sees the
most recent binding first, as for `Map.set`). -/
structure CacheState where
  entries : List (String × List String)
deriving DecidableEq, Repr

def cacheGet (c : CacheState) (cmd : String) : Option (List String) :=
  c.entries.lookup cmd

def cacheSet (c : CacheState) (cmd : String) (v : List String) : CacheState :=
  ⟨(cmd, v) :: c.entries⟩

/-- `getRemoteRefs` with its memoization cache made explicit: returns the ref
lines together with the updated cache.  The cached result is used only when
`retrieveFromCache` is set and the command is present in the cache; the result
is (re-)cached unconditionally. -/
def getRemoteRefsCached (git : GitEnv) (refOrPattern : String)
    (remoteUrl : String) (retrieveFromCache : Bool) (c : CacheState) :
    List String × CacheState :=
  let cmd := refsCmd remoteUrl refOrPattern
  let result :=
    match (if retrieveFromCache then cacheGet c cmd else none) with
    | some cached => cached
    | none => jsSplitOn '\n' (jsTrim (git.lsRemote cmd))
  (result, cacheSet c cmd result)

/-- `getLatestCommit` on top of the cached resolver (default options: the
canonical remote, cache enabled). -/
def getLatestCommitCached (git : GitEnv) (branchName : String)
    (c : CacheState) : String × CacheState :=
  let rs := getRemoteRefsCached git branchName NG_REMOTE_URL true c
  (jsSlice 40 (rs.1.headD ""), rs.2)

/-!
Concrete fixtures used to instantiate the theorems below: small simulated
remotes (functions from ref pattern to `git ls-remote` stdout) and input-variable
records for representative runs.
-/

/-- A 40-character commit id (`a` repeated). -/
def shaA : String := "aaaaaaaaaaaaaaaaaaaaaaaaaaaaaaaaaaaaaaaa"

/-- A 40-character commit id (`b` repeated). -/
def shaB : String := "bbbbbbbbbbbbbbbbbbbbbbbbbbbbbbbbbbbbbbbb"

/-- A remote with version branches 2.9.x, 2.10.x and 3.0.x: the glob
restricted to major 2 returns the two major-2 branches. -/
def c5Remote : String → String := fun pat =>
  if pat = "refs/heads/2.*.x" then
    "s9 refs/heads/2.9.x\ns10 refs/heads/2.10.x"
  else if pat = "refs/heads/*.*.x" then
    "s9 refs/heads/2.9.x\ns10 refs/heads/2.10.x\ns30 refs/heads/3.0.x"
  else ""

/-- A remote whose only version branch is 11.2.x (the stable branch, so there
is no active RC), with 11.2.x at commit `shaA`. -/
def noRcRemote : String → String := fun pat =>
  if pat = "11.2.x" then shaA ++ " refs/heads/11.2.x"
  else if pat = "refs/heads/*.*.x" then shaA ++ " refs/heads/11.2.x"
  else ""

/-- Input variables for a run of the canonical repository on branch 11.2.x
(also the stable branch) at the tip commit `shaA`, not a PR. -/
def noRcVars : InputVars :=
  { currentBranch := "11.2.x", currentCommit := shaA, firebaseToken := none,
    isPullRequest := false, minPwaScore := none, repoName := "angular",
    repoOwner := "angular", stableBranch := "11.2.x" }

/-- A remote where `master` is at commit `shaA` and there is an active RC
branch 12.0.x more recent than the stable branch 11.2.x. -/
def activeRcRemote : String → String := fun pat =>
  if pat = "master" then shaA ++ " refs/heads/master"
  else if pat = "11.2.x" then shaB ++ " refs/heads/11.2.x"
  else if pat = "refs/heads/*.*.x" then
    shaB ++ " refs/heads/11.2.x\n" ++ shaA ++ " refs/heads/12.0.x"
  else if pat = "refs/heads/11.*.x" then shaB ++ " refs/heads/11.2.x"
  else ""

/-- Input variables for a run on `master` at its tip commit. -/
def masterVars : InputVars :=
  { currentBranch := "master", currentCommit := shaA, firebaseToken := none,
    isPullRequest := false, minPwaScore := none, repoName := "angular",
    repoOwner := "angular", stableBranch := "11.2.x" }

/-- Input variables for a run on the stable branch 11.2.x at its tip commit,
against `activeRcRemote` (where 12.0.x is an active RC). -/
def stableWithRcVars : InputVars :=
  { currentBranch := "11.2.x", currentCommit := shaB, firebaseToken := none,
    isPullRequest := false, minPwaScore := none, repoName := "angular",
    repoOwner := "angular", stableBranch := "11.2.x" }

/-- A remote for the archive scenario: stable is 11.2.x, and 5.3.x is the most
recent minor branch of major 5, at commit `shaA`. -/
def archiveRemote : String → String := fun pat =>
  if pat = "5.3.x" then shaA ++ " refs/heads/5.3.x"
  else if pat = "refs/heads/*.*.x" then
    shaA ++ " refs/heads/5.3.x\n" ++ shaB ++ " refs/heads/11.2.x"
  else if pat = "refs/heads/5.*.x" then shaA ++ " refs/heads/5.3.x"
  else ""

/-- Input variables for a run on the old version branch 5.3.x at its tip. -/
def archiveVars : InputVars :=
  { currentBranch := "5.3.x", currentCommit := shaA, firebaseToken := none,
    isPullRequest := false, minPwaScore := none, repoName := "angular",
    repoOwner := "angular", stableBranch := "11.2.x" }

/-- A run where `master` is itself configured as the stable branch while an
active RC branch 2.3.x exists (the remote has only the version branch 2.3.x). -/
def masterStableRemote : String → String := fun pat =>
  if pat = "master" then shaA ++ " refs/heads/master"
  else if pat = "refs/heads/*.*.x" then shaB ++ " refs/heads/2.3.x"
  else ""

/-- Input variables where the configured stable branch is `master` itself. -/
def masterStableVars : InputVars :=
  { currentBranch := "master", currentCommit := shaA, firebaseToken := none,
    isPullRequest := false, minPwaScore := none, repoName := "angular",
    repoOwner := "angular", stableBranch := "master" }

/-- An environment for a run whose `CI_PULL_REQUEST` variable is unset. -/
def prUnsetEnv : Env :=
  { CI_AIO_MIN_PWA_SCORE := none, CI_BRANCH := "master", CI_COMMIT := shaA,
    CI_PULL_REQUEST := none, CI_REPO_NAME := "angular",
    CI_REPO_OWNER := "angular",
    CI_SECRET_AIO_DEPLOY_FIREBASE_TOKEN := none,
    CI_STABLE_BRANCH := "11.2.x" }

end DeployToFirebase

namespace DeployToFirebase

/-- Quick sanity examples for the string helpers (kept as theorems so the file
stays free of commands). -/
theorem jsSplitOn_example : jsSplitOn '.' "2.10.x" = ["2", "10", "x"] := by decide

theorem jsTrim_example : jsTrim " a b\n" = "a b" := by decide

theorem jsStringToNumber_example :
    jsStringToNumber "27" = some 27 ∧ jsStringToNumber "master" = none ∧
      jsStringToNumber "" = some 0 := by decide

theorem mem_insertSorted {le : α → α → Bool} {a x : α} :
    ∀ {l : List α}, x ∈ insertSorted le a l ↔ x = a ∨ x ∈ l := by
  intro l
  induction l with
  | nil => simp [insertSorted]
  | cons b l ih =>
      by_cases hab : le a b = true
      · simp [insertSorted, hab]
      · simp only [insertSorted, if_neg hab, List.mem_cons, ih]
        tauto

theorem pairwise_insertSorted {le : α → α → Bool}
    (total : ∀ a b, le a b || le b a)
    (trans : ∀ a b c, le a b → le b c → le a c) (a : α) :
    ∀ {l : List α}, l.Pairwise (fun x y => le x y = true) →
      (insertSorted le a l).Pairwise (fun x y => le x y = true) := by
  intro l
  induction l with
  | nil => simp [insertSorted]
  | cons b l ih =>
      intro h
      rcases List.pairwise_cons.mp h with ⟨hb, hl⟩
      by_cases hab : le a b = true
      · rw [insertSorted, if_pos hab]
        refine List.pairwise_cons.mpr ⟨?_, h⟩
        intro x hx
        rcases List.mem_cons.mp hx with rfl | hx
        · exact hab
        · exact trans a b x hab (hb x hx)
      · rw [insertSorted, if_neg hab]
        refine List.pairwise_cons.mpr ⟨?_, ih hl⟩
        intro x hx
        rcases mem_insertSorted.mp hx with rfl | hx
        · have h2 := total x b
          simp [hab] at h2
          exact h2
        · exact hb x hx

theorem pairwise_sortByLe {le : α → α → Bool}
    (total : ∀ a b, le a b || le b a)
    (trans : ∀ a b c, le a b → le b c → le a c) :
    ∀ (l : List α), (sortByLe le l).Pairwise (fun x y => le x y = true) := by
  intro l
  induction l with
  | nil => simp [sortByLe]
  | cons a l ih => exact pairwise_insertSorted total trans a ih

theorem mem_sortByLe {le : α → α → Bool} {x : α} :
    ∀ {l : List α}, x ∈ sortByLe le l ↔ x ∈ l := by
  intro l
  induction l with
  | nil => simp [sortByLe]
  | cons a l ih =>
      show x ∈ insertSorted le a (sortByLe le l) ↔ _
      rw [mem_insertSorted]
      simp [ih]

theorem sortByLe_eq_nil_iff {le : α → α → Bool} {l : List α} :
    sortByLe le l = [] ↔ l = [] := by
  constructor
  · intro h
    cases l with
    | nil => rfl
    | cons a l =>
        exfalso
        have : a ∈ sortByLe le (a :: l) := mem_sortByLe.mpr (List.mem_cons_self a l)
        rw [h] at this
        exact (List.not_mem_nil a) this
  · intro h
    subst h
    rfl

/-- In a `Pairwise`-ordered list, every element is related to the last one
(or is the last one). -/
theorem pairwise_rel_getLast? {R : α → α → Prop} {b : α} :
    ∀ {l : List α}, l.Pairwise R → l.getLast? = some b →
      ∀ a ∈ l, a = b ∨ R a b := by
  intro l
  induction l with
  | nil => intro _ h; simp at h
  | cons c l ih =>
      intro hp hlast a ha
      rcases List.pairwise_cons.mp hp with ⟨hc, hl⟩
      cases l with
      | nil =>
          have hcb : c = b := by simpa using hlast
          have hac : a = c := List.mem_singleton.mp ha
          exact Or.inl (hac.trans hcb)
      | cons d l' =>
          rw [List.getLast?_cons_cons] at hlast
          rcases List.mem_cons.mp ha with rfl | ha
          · exact Or.inr (hc b (List.mem_of_getLast?_eq_some hlast))
          · exact ih hl hlast a ha

theorem byVersionLE_total : ∀ a b : String, byVersionLE a b || byVersionLE b a := by
  intro a b
  simp only [byVersionLE, Bool.or_eq_true, Bool.and_eq_true, decide_eq_true_eq]
  omega

theorem byVersionLE_trans :
    ∀ a b c : String, byVersionLE a b → byVersionLE b c → byVersionLE a c := by
  intro a b c
  simp only [byVersionLE, Bool.or_eq_true, Bool.and_eq_true, decide_eq_true_eq]
  omega

/-- Any branch name returned by `getMostRecentMinorBranch` is one of the
surviving candidates, so in particular it matches the strict version pattern. -/
theorem getMostRecentMinorBranch_mem {remote : String → String}
    {major b : String} (h : getMostRecentMinorBranch remote major = some b) :
    b ∈ versionBranchCandidates remote major := by
  have := List.mem_of_getLast?_eq_some h
  exact mem_sortByLe.mp this

theorem versionBranchCandidates_matches {remote : String → String}
    {major b : String} (h : b ∈ versionBranchCandidates remote major) :
    isVersionBranchName b = true := by
  have := List.mem_filter.mp h
  exact this.2

theorem getMostRecentMinorBranch_isVersionBranchName
    {remote : String → String} {major b : String}
    (h : getMostRecentMinorBranch remote major = some b) :
    isVersionBranchName b = true :=
  versionBranchCandidates_matches (getMostRecentMinorBranch_mem h)

theorem isVersionBranchName_ne_master {b : String}
    (h : isVersionBranchName b = true) : b ≠ "master" := by
  intro hb
  subst hb
  simp [isVersionBranchName, jsSplitOn, splitCharAux] at h

/-- Claim C5: for every set of remote refs, `getMostRecentMinorBranch` keeps
only branch names matching the strict `^\d+\.\d+\.x$` pattern and returns one
whose (major, minor) pair is numerically greatest (major compared first, then
minor, both as numbers); restricted to major 2 the set {2.9.x, 2.10.x, 3.0.x}
yields 2.10.x (numeric, not lexicographic, comparison); and it returns `none`
when no ref survives the filtering. -/
theorem claim_C5 :
    (∀ (remote : String → String) (major : String),
        (getMostRecentMinorBranch remote major = none ↔
          versionBranchCandidates remote major = []) ∧
        (∀ b, getMostRecentMinorBranch remote major = some b →
          b ∈ versionBranchCandidates remote major ∧
            isVersionBranchName b = true ∧
            ∀ c ∈ versionBranchCandidates remote major,
              (versionKey c).1 < (versionKey b).1 ∨
                ((versionKey c).1 = (versionKey b).1 ∧
                  (versionKey c).2 ≤ (versionKey b).2))) ∧
      getMostRecentMinorBranch c5Remote "2" = some "2.10.x" := by
  refine ⟨fun remote major => ⟨?_, ?_⟩, ?_⟩
  · unfold getMostRecentMinorBranch
    rw [List.getLast?_eq_none_iff, sortByLe_eq_nil_iff]
  · intro b hb
    refine ⟨getMostRecentMinorBranch_mem hb,
      getMostRecentMinorBranch_isVersionBranchName hb, ?_⟩
    intro c hc
    have hp := pairwise_sortByLe byVersionLE_total byVersionLE_trans
      (versionBranchCandidates remote major)
    have hrel := pairwise_rel_getLast? hp hb c (mem_sortByLe.mpr hc)
    rcases hrel with rfl | hle
    · omega
    · simpa only [byVersionLE, Bool.or_eq_true, Bool.and_eq_true,
        decide_eq_true_eq] using hle
  · decide

/-- Witness for claim C5 at the concrete remote: 2.10.x is a surviving
candidate, matches the pattern, and has the numerically greatest key among
the major-2 candidates. -/
theorem claim_C5_witness :
    "2.10.x" ∈ versionBranchCandidates c5Remote "2" ∧
      isVersionBranchName "2.10.x" = true ∧
      ∀ c ∈ versionBranchCandidates c5Remote "2",
        (versionKey c).1 < (versionKey "2.10.x").1 ∨
          ((versionKey c).1 = (versionKey "2.10.x").1 ∧
            (versionKey c).2 ≤ (versionKey "2.10.x").2) :=
  (claim_C5.1 c5Remote "2").2 "2.10.x" (by decide)

/-- Counterexample for claim C7: when the branch does not exist on the remote
(`git ls-remote` prints nothing), the ref query yields the single empty line
`[""]` — never an empty result array — and `getLatestCommit` simply returns
the empty string instead of failing. -/
theorem claim_C7_counterexample :
    getRemoteRefs (fun _ => "") "4.4.x" = [""] ∧
      getLatestCommit (fun _ => "") "4.4.x" = "" := by decide

/-- Claim C7 as amended: for every branch whose remote-ref query output is
empty (the branch does not exist on the remote), `getLatestCommit` returns the
empty string — the 40-character truncation of the single empty line — rather
than raising any error. -/
theorem claim_C7_amended (remote : String → String) (branch : String)
    (h : jsTrim (remote branch) = "") : getLatestCommit remote branch = "" := by
  unfold getLatestCommit getRemoteRefs
  rw [h]
  decide

/-- Witness for the amended claim C7 at a remote that returns no output. -/
theorem claim_C7_amended_witness :
    jsTrim ((fun (_ : String) => "") "4.4.x") = "" ∧
      getLatestCommit (fun (_ : String) => "") "4.4.x" = "" :=
  ⟨by decide, claim_C7_amended (fun _ => "") "4.4.x" (by decide)⟩

/-- A repeated identical query (same pattern and remote URL, cache enabled)
returns the first call's result, regardless of how the underlying remote
state (`git1` vs `git2`) changed in between. -/
theorem getRemoteRefsCached_second_call (git1 git2 : GitEnv)
    (pat url : String) (c0 : CacheState) :
    (getRemoteRefsCached git2 pat url true
        (getRemoteRefsCached git1 pat url true c0).2).1 =
      (getRemoteRefsCached git1 pat url true c0).1 := by
  simp [getRemoteRefsCached, cacheGet, cacheSet, List.lookup]

/-- Claim C8: within one run, calling the resolver twice with an identical
query (same ref pattern and remote URL) without forcing a cache bypass yields
identical results on both calls, even if the underlying remote state changes
between the calls (`git1` vs `git2`): the second call is served from the
cache and does not re-query.  The same holds for `getLatestCommit` built on
top of the cached resolver. -/
theorem claim_C8 :
    ∀ (git1 git2 : GitEnv) (refOrPattern remoteUrl : String) (c0 : CacheState),
      ((getRemoteRefsCached git2 refOrPattern remoteUrl true
          (getRemoteRefsCached git1 refOrPattern remoteUrl true c0).2).1 =
        (getRemoteRefsCached git1 refOrPattern remoteUrl true c0).1) ∧
      ∀ branchName : String,
        (getLatestCommitCached git2 branchName
            (getLatestCommitCached git1 branchName c0).2).1 =
          (getLatestCommitCached git1 branchName c0).1 := by
  intro git1 git2 refOrPattern remoteUrl c0
  refine ⟨getRemoteRefsCached_second_call git1 git2 refOrPattern remoteUrl c0, ?_⟩
  intro branchName
  show jsSlice 40 ((getRemoteRefsCached git2 branchName NG_REMOTE_URL true
      (getRemoteRefsCached git1 branchName NG_REMOTE_URL true c0).2).1.headD
        "") = _
  rw [getRemoteRefsCached_second_call git1 git2 branchName NG_REMOTE_URL c0]
  rfl

/-- Claim C10: `computeInputVars` sets `isPullRequest` for every value of
`CI_PULL_REQUEST` other than the exact string "false", including when the
variable is absent; consequently a run of the canonical repository with
`CI_PULL_REQUEST` unset produces the skipped plan with the PR-build reason,
for any remote state. -/
theorem claim_C10 :
    (∀ env : Env, env.CI_PULL_REQUEST ≠ some "false" →
        (computeInputVars env).isPullRequest = true) ∧
      ∀ (env : Env) (remote : String → String),
        env.CI_PULL_REQUEST = none → env.CI_REPO_OWNER = "angular" →
        env.CI_REPO_NAME = "angular" →
        computeDeploymentsInfo remote (computeInputVars env) =
          [skipDeployment "Skipping deploy because this is a PR build."] := by
  constructor
  · intro env h
    simp [computeInputVars, h]
  · intro env remote hpr how hnm
    have h1 : ¬((computeInputVars env).repoOwner ++ "/" ++
        (computeInputVars env).repoName ≠ REPO_SLUG) := by
      simp [computeInputVars, how, hnm]
      decide
    have h2 : (computeInputVars env).isPullRequest = true := by
      simp [computeInputVars, hpr]
    unfold computeDeploymentsInfo
    rw [if_neg h1, if_pos h2]

/-- Witness for claim C10 at a concrete environment with `CI_PULL_REQUEST`
unset. -/
theorem claim_C10_witness :
    (computeInputVars prUnsetEnv).isPullRequest = true ∧
      computeDeploymentsInfo (fun _ => "") (computeInputVars prUnsetEnv) =
        [skipDeployment "Skipping deploy because this is a PR build."] :=
  ⟨claim_C10.1 prUnsetEnv (by decide),
    claim_C10.2 prUnsetEnv (fun _ => "") rfl rfl rfl⟩

/-- When the repository-identity, pull-request and stale-commit guards pass,
`computeDeploymentsInfo` proceeds to the branch-classification policy. -/
theorem computeDeploymentsInfo_after_guards (remote : String → String)
    (v : InputVars)
    (h1 : v.repoOwner ++ "/" ++ v.repoName = REPO_SLUG)
    (h2 : v.isPullRequest = false)
    (h3 : v.currentCommit = getLatestCommit remote v.currentBranch) :
    computeDeploymentsInfo remote v =
      if v.currentBranch = "master" then [deploymentInfoPerTarget.next]
      else
        let rcBranch : Option (Option String) :=
          if getMostRecentMinorBranch remote "*" ≠ some v.stableBranch then
            some (getMostRecentMinorBranch remote "*")
          else none
        if rcBranch = some (some v.currentBranch) then
          [deploymentInfoPerTarget.rc]
        else if v.currentBranch = v.stableBranch then
          if rcBranch ≠ none then
            [deploymentInfoPerTarget.stable (computeMajorVersion v.currentBranch)]
          else
            [deploymentInfoPerTarget.stable (computeMajorVersion v.currentBranch),
              deploymentInfoPerTarget.noActiveRc]
        else
          if some v.currentBranch ≠ getMostRecentMinorBranch remote
              (jsNumberToString (computeMajorVersion v.currentBranch)) then
            [skipDeployment ("Skipping deploy of branch \"" ++
              v.currentBranch ++ "\" to Firebase.\n" ++
              "There is a more recent branch with the same major version: \"" ++
              jsToString (getMostRecentMinorBranch remote
                (jsNumberToString (computeMajorVersion v.currentBranch))) ++
              "\"")]
          else if jsGE (computeMajorVersion v.currentBranch)
              (computeMajorVersion v.stableBranch) then
            [skipDeployment ("Skipping deploy of branch \"" ++
              v.currentBranch ++ "\" to Firebase.\n" ++
              "This branch has an equal or higher major version than the " ++
              "stable branch (\"" ++ v.stableBranch ++
              "\") and is not the most recent minor branch.")]
          else
            [deploymentInfoPerTarget.archive
              (computeMajorVersion v.currentBranch)] := by
  simp only [computeDeploymentsInfo]
  rw [if_neg (by simp [h1]), if_neg (by simp [h2]), if_neg (by simp [h3])]

/-- A branch name matching the strict version pattern has the first segment's
numeric value as its major version. -/
theorem computeMajorVersion_of_isVersionBranchName {b : String}
    (h : isVersionBranchName b = true) :
    computeMajorVersion b = some (versionKey b).1 := by
  unfold isVersionBranchName at h
  unfold computeMajorVersion versionKey
  split at h
  next a bb c heq =>
    rw [heq]
    simp only [Bool.and_eq_true, decide_eq_true_eq] at h
    obtain ⟨⟨⟨⟨ha, had⟩, hb⟩, hbd⟩, hc⟩ := h
    simp only [List.headD]
    unfold jsStringToNumber
    rw [if_neg ha, if_pos had]
  next => exact absurd h (by simp)

/-- Claim C2: for every input passing the repository-identity, pull-request
and stale-commit checks whose current branch is `master`, the plan is exactly
the single primary `next` target, for every value of `stableBranch` (which is
unconstrained here). -/
theorem claim_C2 (remote : String → String) (v : InputVars)
    (h1 : v.repoOwner ++ "/" ++ v.repoName = REPO_SLUG)
    (h2 : v.isPullRequest = false)
    (h3 : v.currentCommit = getLatestCommit remote v.currentBranch)
    (h4 : v.currentBranch = "master") :
    computeDeploymentsInfo remote v = [deploymentInfoPerTarget.next] ∧
      deploymentInfoPerTarget.next.type = "primary" := by
  rw [computeDeploymentsInfo_after_guards remote v h1 h2 h3, if_pos h4]
  exact ⟨rfl, rfl⟩

/-- Witness for claim C2: a concrete run on `master` at its tip commit. -/
theorem claim_C2_witness :
    computeDeploymentsInfo activeRcRemote masterVars =
      [deploymentInfoPerTarget.next] :=
  (claim_C2 activeRcRemote masterVars (by decide) (by decide) (by decide)
    (by decide)).1

/-- Claim C1: for every input passing the three guards where the current
branch is the stable branch and the overall most-recent-minor branch is the
stable branch itself (no active RC), the plan is the primary `stable` target
followed by the secondary no-active-RC target, which reuses the `stable`
deploy environment but targets the RC hosting site. -/
theorem claim_C1 (remote : String → String) (v : InputVars)
    (h1 : v.repoOwner ++ "/" ++ v.repoName = REPO_SLUG)
    (h2 : v.isPullRequest = false)
    (h3 : v.currentCommit = getLatestCommit remote v.currentBranch)
    (hcb : v.currentBranch = v.stableBranch)
    (hmr : getMostRecentMinorBranch remote "*" = some v.stableBranch) :
    computeDeploymentsInfo remote v =
      [deploymentInfoPerTarget.stable (computeMajorVersion v.currentBranch),
        deploymentInfoPerTarget.noActiveRc] ∧
      (deploymentInfoPerTarget.stable
        (computeMajorVersion v.currentBranch)).type = "primary" ∧
      deploymentInfoPerTarget.noActiveRc.type = "secondary" ∧
      deploymentInfoPerTarget.noActiveRc.deployEnv =
        (deploymentInfoPerTarget.stable
          (computeMajorVersion v.currentBranch)).deployEnv ∧
      deploymentInfoPerTarget.noActiveRc.deployEnv = some "stable" ∧
      deploymentInfoPerTarget.noActiveRc.siteId = some "rc-angular-io-site" := by
  have hv : isVersionBranchName v.stableBranch = true :=
    getMostRecentMinorBranch_isVersionBranchName hmr
  have hnm : v.currentBranch ≠ "master" := by
    rw [hcb]; exact isVersionBranchName_ne_master hv
  rw [computeDeploymentsInfo_after_guards remote v h1 h2 h3, if_neg hnm]
  refine ⟨?_, rfl, rfl, rfl, rfl, rfl⟩
  simp [hmr, hcb]

/-- Witness for claim C1: a concrete run on the stable branch 11.2.x, which is
also the most recent minor branch overall. -/
theorem claim_C1_witness :
    computeDeploymentsInfo noRcRemote noRcVars =
      [deploymentInfoPerTarget.stable (computeMajorVersion "11.2.x"),
        deploymentInfoPerTarget.noActiveRc] :=
  (claim_C1 noRcRemote noRcVars (by decide) (by decide) (by decide) (by decide)
    (by decide)).1

/-- Counterexample for claim C3 as stated: a run of the canonical repository
where the configured stable branch is `master` itself, the current branch
equals the stable branch, and the overall most-recent-minor branch (2.3.x)
differs from the stable branch.  All of the claim's hypotheses hold, yet the
plan is the `next` target — the trunk rule takes precedence — and not the
`stable` target. -/
theorem claim_C3_counterexample :
    masterStableVars.currentBranch = masterStableVars.stableBranch ∧
      getMostRecentMinorBranch masterStableRemote "*" ≠
        some masterStableVars.stableBranch ∧
      masterStableVars.repoOwner ++ "/" ++ masterStableVars.repoName =
        REPO_SLUG ∧
      masterStableVars.isPullRequest = false ∧
      masterStableVars.currentCommit =
        getLatestCommit masterStableRemote masterStableVars.currentBranch ∧
      computeDeploymentsInfo masterStableRemote masterStableVars =
        [deploymentInfoPerTarget.next] ∧
      deploymentInfoPerTarget.next ≠
        deploymentInfoPerTarget.stable
          (computeMajorVersion masterStableVars.currentBranch) := by
  decide

/-- Claim C3 as amended: additionally assuming the current branch is not
`master` (the trunk rule precedes the stable rule), an input passing the
three guards whose current branch equals the stable branch while the overall
most-recent-minor branch differs from the stable branch (an active RC exists)
yields exactly the single primary `stable` target. -/
theorem claim_C3 (remote : String → String) (v : InputVars)
    (h1 : v.repoOwner ++ "/" ++ v.repoName = REPO_SLUG)
    (h2 : v.isPullRequest = false)
    (h3 : v.currentCommit = getLatestCommit remote v.currentBranch)
    (hnm : v.currentBranch ≠ "master")
    (hcb : v.currentBranch = v.stableBranch)
    (hmr : getMostRecentMinorBranch remote "*" ≠ some v.stableBranch) :
    computeDeploymentsInfo remote v =
      [deploymentInfoPerTarget.stable (computeMajorVersion v.currentBranch)] ∧
      (deploymentInfoPerTarget.stable
        (computeMajorVersion v.currentBranch)).type = "primary" := by
  have hrc : getMostRecentMinorBranch remote "*" ≠ some v.currentBranch := by
    rw [hcb]; exact hmr
  rw [computeDeploymentsInfo_after_guards remote v h1 h2 h3, if_neg hnm]
  refine ⟨?_, rfl⟩
  simp [hmr, hcb, hrc]

/-- Witness for the amended claim C3: a concrete run on the stable branch
11.2.x while 12.0.x is an active RC. -/
theorem claim_C3_witness :
    computeDeploymentsInfo activeRcRemote stableWithRcVars =
      [deploymentInfoPerTarget.stable (computeMajorVersion "11.2.x")] :=
  (claim_C3 activeRcRemote stableWithRcVars (by decide) (by decide) (by decide)
    (by decide) (by decide) (by decide)).1

/-- Claim C4: for every input passing the three guards whose current branch
matches `<major>.<minor>.x` and is neither `master` (impossible for a version
branch), nor the RC branch, nor the stable branch — with the stable branch
having a (parsed) major version `sm`:
(a) if the current branch is not the most recent minor branch for its major,
the plan is a single skipped descriptor;
(b) if it is the most recent minor for its major but its major is greater
than or equal to `sm`, the plan is a single skipped descriptor;
(c) if it is the most recent minor for its major and its major is strictly
less than `sm`, the plan is exactly the single primary `archive` target,
whose `siteId` and `deployedUrl` are keyed by the branch's major version. -/
theorem claim_C4 (remote : String → String) (v : InputVars)
    (h1 : v.repoOwner ++ "/" ++ v.repoName = REPO_SLUG)
    (h2 : v.isPullRequest = false)
    (h3 : v.currentCommit = getLatestCommit remote v.currentBranch)
    (hver : isVersionBranchName v.currentBranch = true)
    (hneStable : v.currentBranch ≠ v.stableBranch)
    (hneRc : getMostRecentMinorBranch remote "*" ≠ some v.currentBranch)
    (sm : Nat) (hsm : computeMajorVersion v.stableBranch = some sm) :
    (getMostRecentMinorBranch remote
        (jsNumberToString (computeMajorVersion v.currentBranch)) ≠
          some v.currentBranch →
      ∃ reason, computeDeploymentsInfo remote v = [skipDeployment reason]) ∧
    (getMostRecentMinorBranch remote
        (jsNumberToString (computeMajorVersion v.currentBranch)) =
          some v.currentBranch →
      (versionKey v.currentBranch).1 ≥ sm →
      ∃ reason, computeDeploymentsInfo remote v = [skipDeployment reason]) ∧
    (getMostRecentMinorBranch remote
        (jsNumberToString (computeMajorVersion v.currentBranch)) =
          some v.currentBranch →
      (versionKey v.currentBranch).1 < sm →
      computeDeploymentsInfo remote v =
        [deploymentInfoPerTarget.archive
          (some (versionKey v.currentBranch).1)] ∧
      (deploymentInfoPerTarget.archive
        (some (versionKey v.currentBranch).1)).type = "primary" ∧
      (deploymentInfoPerTarget.archive
        (some (versionKey v.currentBranch).1)).siteId =
          some ("v" ++ Nat.repr (versionKey v.currentBranch).1 ++
            "-angular-io-site") ∧
      (deploymentInfoPerTarget.archive
        (some (versionKey v.currentBranch).1)).deployedUrl =
          some ("https://v" ++ Nat.repr (versionKey v.currentBranch).1 ++
            ".angular.io/")) := by
  have hm : computeMajorVersion v.currentBranch =
      some (versionKey v.currentBranch).1 :=
    computeMajorVersion_of_isVersionBranchName hver
  have hnm : v.currentBranch ≠ "master" := isVersionBranchName_ne_master hver
  have hstage : computeDeploymentsInfo remote v =
      if some v.currentBranch ≠ getMostRecentMinorBranch remote
          (jsNumberToString (computeMajorVersion v.currentBranch)) then
        [skipDeployment ("Skipping deploy of branch \"" ++
          v.currentBranch ++ "\" to Firebase.\n" ++
          "There is a more recent branch with the same major version: \"" ++
          jsToString (getMostRecentMinorBranch remote
            (jsNumberToString (computeMajorVersion v.currentBranch))) ++
          "\"")]
      else if jsGE (computeMajorVersion v.currentBranch)
          (computeMajorVersion v.stableBranch) then
        [skipDeployment ("Skipping deploy of branch \"" ++
          v.currentBranch ++ "\" to Firebase.\n" ++
          "This branch has an equal or higher major version than the " ++
          "stable branch (\"" ++ v.stableBranch ++
          "\") and is not the most recent minor branch.")]
      else
        [deploymentInfoPerTarget.archive
          (computeMajorVersion v.currentBranch)] := by
    rw [computeDeploymentsInfo_after_guards remote v h1 h2 h3, if_neg hnm]
    by_cases hms : getMostRecentMinorBranch remote "*" = some v.stableBranch
    · simp [hms, hneStable]
    · have hrc : getMostRecentMinorBranch remote "*" ≠
          some v.currentBranch := hneRc
      simp [hms, hneStable, hrc]
  refine ⟨?_, ?_, ?_⟩
  · intro hc
    exact ⟨_, by rw [hstage, if_pos (Ne.symm hc)]⟩
  · intro hc hge
    exact ⟨_, by
      rw [hstage, if_neg (by simp [hc]),
        if_pos (by rw [hm, hsm]; simpa [jsGE] using hge)]⟩
  · intro hc hlt
    refine ⟨?_, rfl, rfl, rfl⟩
    rw [hstage, if_neg (by simp [hc]),
      if_neg (by rw [hm, hsm]; simp [jsGE]; omega), hm]

/-- Witness for claim C4 (archive case): a concrete run on branch 5.3.x, the
most recent minor of major 5, with stable branch 11.2.x. -/
theorem claim_C4_witness :
    computeDeploymentsInfo archiveRemote archiveVars =
      [deploymentInfoPerTarget.archive (some (versionKey "5.3.x").1)] :=
  ((claim_C4 archiveRemote archiveVars (by decide) (by decide) (by decide)
    (by decide) (by decide) (by decide) 11 (by decide)).2.2 (by decide)
      (by decide)).1

theorem missingProperties_skipped {t : Deployment} (ht : t.type = "skipped")
    (hn : t.name.isSome = true) (hr : t.reason.isSome = true) :
    missingProperties t = [] := by
  simp [missingProperties, if_pos ht, requiredPropertiesForSkipped,
    targetPropertyIsDefined, hn, hr]

theorem missingProperties_complete {t : Deployment} (ht : ¬t.type = "skipped")
    (hc : nonSkippedComplete t = true) : missingProperties t = [] := by
  simp only [nonSkippedComplete, Bool.and_eq_true] at hc
  obtain ⟨⟨⟨⟨⟨⟨h1, h2⟩, h3⟩, h4⟩, h5⟩, h6⟩, h7⟩ := hc
  simp [missingProperties, if_neg ht, requiredPropertiesForNonSkipped,
    targetPropertyIsDefined, h1, h2, h3, h4, h5, h6, h7]

theorem validateDeploymentsInfo_skip (r : String) :
    validateDeploymentsInfo [skipDeployment r] = .ok () := rfl

/-- The validator accepts a complete primary target followed by complete
secondary targets that all share the primary's deploy environment. -/
theorem validateDeploymentsInfo_primary_secondaries (p : Deployment)
    (ss : List Deployment) (hp : p.type = "primary")
    (hpc : nonSkippedComplete p = true)
    (hs : ∀ s ∈ ss, s.type = "secondary" ∧ nonSkippedComplete s = true ∧
      s.deployEnv = p.deployEnv) :
    validateDeploymentsInfo (p :: ss) = .ok () := by
  have hother : (p :: ss).filter
      (fun t => !knownTargetTypes.contains t.type) = [] := by
    rw [List.filter_eq_nil_iff]
    intro t ht
    rcases List.mem_cons.mp ht with rfl | ht
    · simp [knownTargetTypes, hp]
    · simp [knownTargetTypes, (hs t ht).1]
  have hfind : (p :: ss).find?
      (fun t => !(missingProperties t).isEmpty) = none := by
    rw [List.find?_eq_none]
    intro t ht
    rcases List.mem_cons.mp ht with rfl | ht
    · simp [missingProperties_complete (by simp [hp]) hpc]
    · simp [missingProperties_complete (by simp [(hs t ht).1]) (hs t ht).2.1]
  have hskip : (p :: ss).filter (fun t => t.type = "skipped") = [] := by
    rw [List.filter_eq_nil_iff]
    intro t ht
    rcases List.mem_cons.mp ht with rfl | ht
    · simp [hp]
    · simp [(hs t ht).1]
  have hprim : (p :: ss).filter (fun t => t.type = "primary") = [p] := by
    rw [List.filter_cons_of_pos (by simp [hp]), List.filter_eq_nil_iff.mpr]
    intro t ht
    simp [(hs t ht).1]
  have hnonmatch : ((p :: ss).filter (fun t => t.type = "secondary")).filter
      (fun t => !(t.deployEnv == p.deployEnv)) = [] := by
    rw [List.filter_eq_nil_iff]
    intro t ht
    have ht2 := (List.mem_filter.mp ht).1
    rcases List.mem_cons.mp ht2 with rfl | ht2
    · simp
    · simp [(hs t ht2).2.2]
  simp only [validateDeploymentsInfo, hother, hfind, hskip, hprim, hnonmatch]
  simp [List.indexOf_cons_self]

theorem validateDeploymentsInfo_single_primary (p : Deployment)
    (hp : p.type = "primary") (hpc : nonSkippedComplete p = true) :
    validateDeploymentsInfo [p] = .ok () :=
  validateDeploymentsInfo_primary_secondaries p [] hp hpc (by simp)

theorem exists_error_of_ne_ok {r : Except String Unit} (h : r ≠ .ok ()) :
    ∃ e, r = .error e := by
  cases r with
  | error e => exact ⟨e, rfl⟩
  | ok u => cases u; exact absurd rfl h

/-- The validator rejects every plan containing two (or more) primary
descriptors. -/
theorem validateDeploymentsInfo_two_primaries {ds : List Deployment}
    (h : 2 ≤ (ds.filter (fun t => t.type = "primary")).length) :
    validateDeploymentsInfo ds ≠ .ok () := by
  intro hok
  have hle := List.length_filter_le (fun t => decide (t.type = "primary")) ds
  simp only [validateDeploymentsInfo] at hok
  split at hok
  · simp at hok
  · split at hok
    · simp at hok
    · split at hok
      · split at hok
        · simp at hok
        · rename_i hlen
          omega
      · split at hok
        · rename_i heq
          have := congrArg List.length heq
          simp at this
          omega
        · simp at hok

/-- The validator rejects every plan containing a primary descriptor and a
secondary descriptor whose deploy environments differ. -/
theorem validateDeploymentsInfo_mismatched_secondary {ds : List Deployment}
    {p s : Deployment} (hpmem : p ∈ ds) (hp : p.type = "primary")
    (hsmem : s ∈ ds) (hstype : s.type = "secondary")
    (henv : s.deployEnv ≠ p.deployEnv) :
    validateDeploymentsInfo ds ≠ .ok () := by
  intro hok
  have hps : p ≠ s := by
    intro he
    rw [he] at hp
    exact absurd (hp.symm.trans hstype) (by decide)
  have hlen2 : 2 ≤ ds.length := by
    match ds, hpmem with
    | [a], hpmem =>
        have h1 : p = a := List.mem_singleton.mp hpmem
        have h2 : s = a := List.mem_singleton.mp hsmem
        exact absurd (h1.trans h2.symm) hps
    | a :: b :: l, _ => simp
  simp only [validateDeploymentsInfo] at hok
  split at hok
  · simp at hok
  · split at hok
    · simp at hok
    · split at hok
      · split at hok
        · simp at hok
        · rename_i hlen
          omega
      · split at hok
        · rename_i heq
          split at hok
          · simp at hok
          · split at hok
            · simp at hok
            · rename_i hpt0 hnm
              have hppt : p ∈ ds.filter (fun t => t.type = "primary") :=
                List.mem_filter.mpr ⟨hpmem, by simp [hp]⟩
              rw [heq] at hppt
              have hpt := (List.mem_singleton.mp hppt).symm
              have hsm : s ∈ (ds.filter
                  (fun t => t.type = "secondary")).filter
                  (fun t => !(t.deployEnv == p.deployEnv)) :=
                List.mem_filter.mpr
                  ⟨List.mem_filter.mpr ⟨hsmem, by simp [hstype]⟩,
                    by simp [henv]⟩
              rw [← hpt] at hsm
              have := List.length_pos.mpr (List.ne_nil_of_mem hsm)
              omega
        · simp at hok

/-- Claim C9: for every input and every remote state, the plan produced by
`computeDeploymentsInfo` passes `validateDeploymentsInfo` without error: a
skipped plan is a single well-formed descriptor, a non-skipped plan has its
single complete primary descriptor first, and every secondary descriptor
shares the primary's deploy environment. -/
theorem claim_C9 :
    ∀ (remote : String → String) (v : InputVars),
      validateDeploymentsInfo (computeDeploymentsInfo remote v) = .ok () := by
  intro remote v
  simp only [computeDeploymentsInfo]
  repeat' split
  all_goals
    first
    | exact validateDeploymentsInfo_skip _
    | exact validateDeploymentsInfo_single_primary _ rfl rfl
    | exact validateDeploymentsInfo_primary_secondaries _ _ rfl rfl
        (by intro s hs; simp at hs; subst hs; exact ⟨rfl, rfl, rfl⟩)

/-- Claim C6: the validator rejects (throws for) any plan with two primary
descriptors and any plan with a secondary descriptor whose deploy environment
differs from the primary's; it accepts a single well-formed skipped descriptor
and a well-formed primary descriptor at index 0 followed by secondary
descriptors whose deploy environments all equal the primary's. -/
theorem claim_C6 :
    (∀ ds : List Deployment,
        2 ≤ (ds.filter (fun t => t.type = "primary")).length →
        ∃ e, validateDeploymentsInfo ds = .error e) ∧
      (∀ (ds : List Deployment) (p s : Deployment), p ∈ ds →
        p.type = "primary" → s ∈ ds → s.type = "secondary" →
        s.deployEnv ≠ p.deployEnv →
        ∃ e, validateDeploymentsInfo ds = .error e) ∧
      (∀ reason, validateDeploymentsInfo [skipDeployment reason] = .ok ()) ∧
      (∀ (p : Deployment) (ss : List Deployment), p.type = "primary" →
        nonSkippedComplete p = true →
        (∀ s ∈ ss, s.type = "secondary" ∧ nonSkippedComplete s = true ∧
          s.deployEnv = p.deployEnv) →
        validateDeploymentsInfo (p :: ss) = .ok ()) :=
  ⟨fun _ h => exists_error_of_ne_ok (validateDeploymentsInfo_two_primaries h),
    fun _ _ _ hpm hp hsm hst henv => exists_error_of_ne_ok
      (validateDeploymentsInfo_mismatched_secondary hpm hp hsm hst henv),
    fun r => validateDeploymentsInfo_skip r,
    fun p ss hp hpc hs =>
      validateDeploymentsInfo_primary_secondaries p ss hp hpc hs⟩

/-- Witness for claim C6 at concrete plans: two primaries are rejected, a
mismatched secondary is rejected, and the two well-formed shapes are
accepted. -/
theorem claim_C6_witness :
    (∃ e, validateDeploymentsInfo
        [deploymentInfoPerTarget.next, deploymentInfoPerTarget.rc] =
          .error e) ∧
      (∃ e, validateDeploymentsInfo
        [deploymentInfoPerTarget.rc, deploymentInfoPerTarget.noActiveRc] =
          .error e) ∧
      validateDeploymentsInfo [skipDeployment "not the canonical repo"] =
        .ok () ∧
      validateDeploymentsInfo [deploymentInfoPerTarget.stable (some 11),
        deploymentInfoPerTarget.noActiveRc] = .ok () :=
  ⟨claim_C6.1 [deploymentInfoPerTarget.next, deploymentInfoPerTarget.rc]
      (by decide),
    claim_C6.2.1 [deploymentInfoPerTarget.rc, deploymentInfoPerTarget.noActiveRc]
      deploymentInfoPerTarget.rc deploymentInfoPerTarget.noActiveRc
      (by decide) (by decide) (by decide) (by decide) (by decide),
    claim_C6.2.2.1 "not the canonical repo",
    claim_C6.2.2.2 (deploymentInfoPerTarget.stable (some 11))
      [deploymentInfoPerTarget.noActiveRc] (by decide) (by decide)
      (by intro s hs; simp at hs; subst hs; exact ⟨rfl, rfl, rfl⟩)⟩

end DeployToFirebase
